import Mathlib

/-!
Shallow embedding of the timeline-visualizer core
(source: src/lib/timelineVisualizer.ts).

Modelling conventions:
- JS numbers (times, pixels, zoom values) are rationals; all arithmetic in
  the source is exact over the values the claims exercise.
- JS null / undefined becomes Option.
- JS objects whose key order is observable (the resolved timeline's
  objects and layers maps) become association lists in key order; JS
  guarantees unique keys, which appears as Nodup hypotheses where needed.
- The opaque payloads (content, enable, classes, options, statistics) are
  modelled as Strings: the code never looks inside them, it only copies
  and compares them.
-/

/-- A resolved timeline instance (the source's TimelineObjectInstance).
The field named stop models the source's end field; none models null,
meaning open-ended. -/
structure TVInstance where
  id : String
  start : ℚ
  stop : Option ℚ
  deriving DecidableEq, Repr

/-- The resolved block of a resolved timeline object. The field isResolved
models the source's resolved.resolved boolean. -/
structure ResolvedBlock where
  instances : List TVInstance
  levelDeep : Nat
  isResolved : Bool
  resolving : Bool
  deriving DecidableEq, Repr

/-- A ResolvedTimelineObject: id, layer, opaque content and enable, and the
resolved block. -/
structure RTObject where
  content : String
  enable : String
  id : String
  layer : String
  resolved : ResolvedBlock
  deriving DecidableEq, Repr

/-- A ResolvedTimeline: objects keyed by object id (association list in JS
key order), layers keyed by layer name (only the keys are ever read, so we
keep the key list), and opaque classes, options and statistics. -/
structure RTimeline where
  classes : String
  layers : List String
  objects : List (String × RTObject)
  options : String
  statistics : String
  deriving DecidableEq, Repr

/-- TrimProperties: the field named stop models the source's end field. -/
structure TrimProperties where
  start : Option ℚ
  stop : Option ℚ
  deriving DecidableEq, Repr

/-- Association-list lookup: first entry with the given key, as JS property
access on an object with unique keys. -/
def alookup {α : Type} : List (String × α) → String → Option α
  | [], _ => none
  | (k, v) :: rest, key => if k = key then some v else alookup rest key

/-- Association-list update in place: replaces the value at the first entry
with the given key, keeping its position, as JS assignment to an existing
property. Absent keys are left alone (the embedding only updates keys that
are present). -/
def aupdate {α : Type} : List (String × α) → String → α → List (String × α)
  | [], _, _ => []
  | (k, v) :: rest, key, nv =>
    if k = key then (k, nv) :: rest else (k, v) :: aupdate rest key nv

/-- JS comparison (e || Infinity) > t on a nullable number e: both null and
0 are falsy and fall back to Infinity, which exceeds every t. -/
def orInfGT (e : Option ℚ) (t : ℚ) : Bool :=
  match e with
  | none => true
  | some v => v == 0 || decide (t < v)

/-- JS comparison s < (e || Infinity) on a nullable number e: null and 0
fall back to Infinity. -/
def startLTOrInf (s : ℚ) (e : Option ℚ) : Bool :=
  match e with
  | none => true
  | some v => v == 0 || decide (s < v)

/-- One instance pass of trimTimeline: mirrors the two truthiness-guarded
branches (if (trim.start), if (trim.end): a 0 bound is falsy and skipped),
the start clamp, the end clamp, and the final positive-duration keep test.
Returns the clamped clone when the source would keep the instance. -/
def trimInstance (trim : TrimProperties) (inst : TVInstance) : Option TVInstance :=
  let r1 :=
    match trim.start with
    | some ts =>
      if ts == 0 then (false, inst)
      else if orInfGT inst.stop ts then
        (true, if inst.start < ts then { inst with start := ts } else inst)
      else (false, inst)
    | none => (false, inst)
  let r2 :=
    match trim.stop with
    | some te =>
      if te == 0 then r1
      else if inst.start < te then
        (true, if orInfGT r1.2.stop te then { r1.2 with stop := some te } else r1.2)
      else r1
    | none => r1
  if r2.1 && startLTOrInf r2.2.start r2.2.stop then some r2.2 else none

/-- The fresh object trimTimeline creates for the first surviving instance
of an object. The source assigns enable: obj.content (kept faithfully). -/
def mkTrimObject (obj : RTObject) (newInst : TVInstance) : RTObject :=
  { content := obj.content
    enable := obj.content
    id := obj.id
    layer := obj.layer
    resolved :=
      { instances := [newInst]
        levelDeep := obj.resolved.levelDeep
        isResolved := obj.resolved.isResolved
        resolving := obj.resolved.resolving } }

/-- Inserting one surviving instance into the accumulating newObjects map:
push onto an existing entry, else append a fresh entry. -/
def pushTrimInstance (acc : List (String × RTObject)) (objId : String)
    (obj : RTObject) (newInst : TVInstance) : List (String × RTObject) :=
  match alookup acc objId with
  | some cur =>
    aupdate acc objId
      { cur with resolved :=
        { cur.resolved with instances := cur.resolved.instances ++ [newInst] } }
  | none => acc ++ [(objId, mkTrimObject obj newInst)]

/-- trimTimeline: iterates all objects and their instances in order,
collecting surviving clamped instances into a fresh objects map; the other
timeline fields are copied through. -/
def trimTimeline (timeline : RTimeline) (trim : TrimProperties) : RTimeline :=
  let newObjects := timeline.objects.foldl
    (fun acc p =>
      p.2.resolved.instances.foldl
        (fun acc2 inst =>
          match trimInstance trim inst with
          | some newInst => pushTrimInstance acc2 p.1 p.2 newInst
          | none => acc2)
        acc)
    []
  { classes := timeline.classes
    layers := timeline.layers
    objects := newObjects
    options := timeline.options
    statistics := timeline.statistics }

/-- The isEqual comparison in mergeTimelineObjects with the resolved block
replaced by null on both sides: it compares content, enable, id and layer. -/
def eqNonResolved (a b : RTObject) : Bool :=
  a.content == b.content && a.enable == b.enable && a.id == b.id && a.layer == b.layer

/-- Inner forEach of the stitching pass for one captured past instance p:
walks the present instances; whenever p.end === presentInstance.start (null
never equals a number), it widens that present instance's start to p.start
and performs the source's splice(indexOf(presentInstance), 1) on the past
list. indexOf compares by reference and the present instance is never in
the past list, so it yields -1 and splice(-1, 1) removes the LAST element
of the past list (a no-op on an empty list). Returns the updated past and
present lists. -/
def stitchInner (p : TVInstance) :
    List TVInstance → List TVInstance → List TVInstance × List TVInstance
  | pastCur, [] => (pastCur, [])
  | pastCur, q :: rest =>
    if p.stop == some q.start then
      let res := stitchInner p pastCur.dropLast rest
      (res.1, { q with start := p.start } :: res.2)
    else
      let res := stitchInner p pastCur rest
      (res.1, q :: res.2)

/-- Outer forEach of the stitching pass: JS forEach caps the iteration count
at the array's original length (the fuel), reads the current element at
index k if it still exists (skipping indices past the shrunken array), and
runs the inner pass with it. -/
def stitchFrom : Nat → Nat → List TVInstance → List TVInstance →
    List TVInstance × List TVInstance
  | _, 0, pastCur, presentCur => (pastCur, presentCur)
  | k, fuel + 1, pastCur, presentCur =>
    match pastCur.get? k with
    | some p =>
      let res := stitchInner p pastCur presentCur
      stitchFrom (k + 1) fuel res.1 res.2
    | none => stitchFrom (k + 1) fuel pastCur presentCur

/-- The full instance-stitching pass for one object present in both
timelines. -/
def stitchInstances (pastInsts presentInsts : List TVInstance) :
    List TVInstance × List TVInstance :=
  stitchFrom 0 pastInsts.length pastInsts presentInsts

/-- Processing of one past key in mergeTimelineObjects: if the key exists in
both objects maps and the objects agree outside the resolved block, stitch
their instance lists and write both back. -/
def mergeStitchKey (pm qm : List (String × RTObject)) (objId : String) :
    List (String × RTObject) × List (String × RTObject) :=
  match alookup pm objId, alookup qm objId with
  | some pastObj, some presentObj =>
    if eqNonResolved pastObj presentObj then
      let res := stitchInstances pastObj.resolved.instances presentObj.resolved.instances
      (aupdate pm objId
        { pastObj with resolved := { pastObj.resolved with instances := res.1 } },
       aupdate qm objId
        { presentObj with resolved := { presentObj.resolved with instances := res.2 } })
    else (pm, qm)
  | _, _ => (pm, qm)

/-- The lodash.merge of the two objects maps: past keys first, deep-merged
with the present value when the key exists in both (the present object's
scalar fields win; instance arrays merge index-wise, and since every
instance field is a defined value, the present instance wins at shared
indices and the past supplies any extra tail elements), then present-only
keys appended. -/
def lodashMergeObjects (pm qm : List (String × RTObject)) :
    List (String × RTObject) :=
  pm.map (fun p =>
    match alookup qm p.1 with
    | some qo =>
      (p.1, { qo with resolved :=
        { qo.resolved with instances :=
          qo.resolved.instances ++
            p.2.resolved.instances.drop qo.resolved.instances.length } })
    | none => p)
  ++ qm.filter (fun q => (alookup pm q.1).isNone)

/-- The final lodash.merge(past, present) of the two timelines: opaque
scalar fields come from present, the layers key set is past's keys followed
by present's new keys, and the objects maps deep-merge as above. -/
def lodashMergeTimeline (past present : RTimeline) : RTimeline :=
  { classes := present.classes
    layers := past.layers ++ present.layers.filter (fun l => l ∉ past.layers)
    objects := lodashMergeObjects past.objects present.objects
    options := present.options
    statistics := present.statistics }

/-- mergeTimelineObjects: the mutation pass over the snapshot of past's keys
followed by the lodash.merge of the two (mutated) timelines. -/
def mergeTimelineObjects (past present : RTimeline) : RTimeline :=
  let keys := past.objects.map Prod.fst
  let res := keys.foldl (fun st k => mergeStitchKey st.1 st.2 k)
    (past.objects, present.objects)
  lodashMergeTimeline { past with objects := res.1 } { present with objects := res.2 }

/-- The dedup loop of getLayersToDraw: push each key not yet collected, in
first-occurrence order (the source's indexOf === -1 test). -/
def dedupKeys (keys : List String) : List String :=
  keys.foldl (fun acc l => if l ∈ acc then acc else acc ++ [l]) []

/-- Pairing the deduplicated layer names with their forEach indices. -/
def withIdx : List String → Nat → List (String × Nat)
  | [], _ => []
  | l :: ls, i => (l, i) :: withIdx ls (i + 1)

/-- getLayersToDraw, restricted to its observable output: the layer-name to
row-index mapping built from the resolved timeline's layers keys. The
source never sorts; indices follow first-occurrence order of the keys. -/
def getLayersToDraw (layerKeys : List String) : List (String × Nat) :=
  withIdx (dedupKeys layerKeys) 0

/-- Index of the first occurrence of x (length of the list when absent). -/
def firstIdx (x : String) : List String → Nat
  | [] => 0
  | y :: ys => if y = x then 0 else firstIdx x ys + 1

/-- The mutable viewport / playhead state of TimelineVisualizer. Fields not
needed by any claim (the drawing surface, the hover bookkeeping, mouse-drag
bookkeeping) are kept in separate structures. rowHeight, timelineObjectHeight
and layerLabels are undefined before the first layer rebuild; they are
initialised to 0 and the empty map and are untouched by the viewport
operations. -/
structure VisState where
  drawPlayhead : Bool
  canvasWidth : ℚ
  timelineWidth : ℚ
  timelineStart : ℚ
  drawTimeStart : ℚ
  drawTimeEnd : ℚ
  drawTimeRange : ℚ
  scaledDrawTimeRange : ℚ
  pixelsWidthPerUnitTime : ℚ
  timelineZoom : ℚ
  playViewPort : Bool
  playHeadPlaying : Bool
  playSpeed : ℚ
  playHeadTime : ℚ
  playHeadPosition : ℚ
  rowHeight : ℚ
  timelineObjectHeight : ℚ
  layerLabels : List (String × Nat)
  deriving DecidableEq, Repr

/-- The ViewPort argument of setViewPort; every field is optional (the
source checks each against undefined). -/
structure ViewPort where
  timestamp : Option ℚ
  zoom : Option ℚ
  playPlayhead : Option Bool
  playheadTime : Option ℚ
  playViewPort : Option Bool
  playSpeed : Option ℚ
  deriving DecidableEq, Repr

/-- An all-absent ViewPort argument, for building concrete calls. -/
def emptyViewPort : ViewPort :=
  { timestamp := none, zoom := none, playPlayhead := none
    playheadTime := none, playViewPort := none, playSpeed := none }

/-- updateScaledDrawTimeRange: recomputes the zoom-scaled range and the
pixels-per-unit-time from the current window. -/
def updateScaledDrawTimeRange (s : VisState) : VisState :=
  { s with
    scaledDrawTimeRange := s.drawTimeRange * (s.timelineZoom / 100)
    pixelsWidthPerUnitTime := s.timelineWidth / (s.drawTimeEnd - s.drawTimeStart) }

/-- timeToXCoord: -1 when the time is left of the window, the right edge of
the timeline when right of the window, else linear interpolation. -/
def timeToXCoord (s : VisState) (time : ℚ) : ℚ :=
  if time < s.drawTimeStart then -1
  else if time > s.drawTimeEnd then s.timelineWidth + s.timelineStart
  else (time - s.drawTimeStart) / (s.drawTimeEnd - s.drawTimeStart) * s.timelineWidth
    + s.timelineStart

/-- getCursorPositionAcrossTimeline: fraction across the drawable timeline,
-1 when the cursor is not over it. -/
def getCursorPositionAcrossTimeline (s : VisState) (cursorX : ℚ) : ℚ :=
  if cursorX ≤ s.timelineStart ∨ cursorX ≥ s.timelineStart + s.timelineWidth then -1
  else (cursorX - s.timelineStart) / s.timelineWidth

/-- cursorPosToTime: note that it scales by scaledDrawTimeRange, not by the
window width drawTimeEnd - drawTimeStart used by timeToXCoord. -/
def cursorPosToTime (s : VisState) (cursorX : ℚ) : ℚ :=
  if cursorX ≤ s.timelineStart ∨ cursorX ≥ s.timelineStart + s.timelineWidth then -1
  else s.drawTimeStart + s.scaledDrawTimeRange * getCursorPositionAcrossTimeline s cursorX

/-- computePlayheadPosition: clamps the playhead pixel to the timeline's
left edge and reports whether it moved. -/
def computePlayheadPosition (s : VisState) : VisState × Bool :=
  let pos := timeToXCoord s s.playHeadTime
  let pos := if pos < s.timelineStart then s.timelineStart else pos
  if pos ≠ s.playHeadPosition then ({ s with playHeadPosition := pos }, true)
  else (s, false)

/-- canvasScrollByDeltaX: pan by a pixel delta, clamping the start at 0 and
preserving the zoom-scaled window width; a no-op when already clamped. -/
def canvasScrollByDeltaX (dx : ℚ) (s : VisState) : VisState :=
  let targetStart := s.drawTimeStart + dx / s.pixelsWidthPerUnitTime
  let targetStart := if targetStart < 0 then 0 else targetStart
  if targetStart = s.drawTimeStart then s
  else { s with drawTimeStart := targetStart
                drawTimeEnd := targetStart + s.scaledDrawTimeRange }

/-- zoomUnderCursor: reads the time and ratio under the cursor before
rescaling, then re-centres the window so that time stays under the cursor,
shifting right when the start would go negative. -/
def zoomUnderCursor (cursorX : ℚ) (s : VisState) : VisState :=
  let coordToTime := cursorPosToTime s cursorX
  let ratio := getCursorPositionAcrossTimeline s cursorX
  let s := updateScaledDrawTimeRange s
  let targetStart := coordToTime - ratio * s.scaledDrawTimeRange
  let targetEnd := targetStart + s.scaledDrawTimeRange
  let tgt := if targetStart < 0 then ((0 : ℚ), targetEnd + (0 - targetStart))
    else (targetStart, targetEnd)
  { s with drawTimeStart := tgt.1, drawTimeEnd := tgt.2 }

/-- The ctrl+wheel zoom handler: guarded by the cursor being over the
timeline; multiplies or divides the zoom by ZOOM_FACTOR = 1.001 per unit of
wheel delta (modelled for integer deltas) and re-centres under the cursor. -/
def canvasScrollWheelZoom (deltaY : Int) (cursorX : ℚ) (s : VisState) : VisState :=
  if cursorX ≤ s.timelineStart then s
  else if deltaY > 0 then
    zoomUnderCursor cursorX
      { s with timelineZoom := s.timelineZoom * ((1001 : ℚ) / 1000) ^ deltaY.natAbs }
  else if deltaY < 0 then
    zoomUnderCursor cursorX
      { s with timelineZoom := s.timelineZoom / ((1001 : ℚ) / 1000) ^ deltaY.natAbs }
  else s

/-- The redraw path of setViewPort when anything changed: the explicit
computePlayheadPosition call followed by redrawTimeline, whose own
computePlayheadPosition call is a no-op the second time. -/
def svpFinish (s : VisState) (changed : Bool) : VisState :=
  if changed then (computePlayheadPosition (computePlayheadPosition s).1).1 else s

/-- Error message of the playSpeed guard. -/
def errPlaySpeed : String :=
  "setViewPort: viewPort.playSpeed was set, but drawPlayhead was not set in constructor"

/-- Error message of the playPlayhead guard. -/
def errPlayPlayhead : String :=
  "setViewPort: viewPort.playPlayhead was set, but drawPlayhead was not set in constructor"

/-- Error message of the playheadTime guard. -/
def errPlayheadTime : String :=
  "setViewPort: viewPort.playheadTime was set, but drawPlayhead was not set in constructor"

/-- Last step of setViewPort: the playheadTime field (guarded, clamped at 0,
marks the viewport changed). -/
def setViewPortStep3 (vp : ViewPort) (s : VisState) (changed : Bool) :
    VisState × Option String :=
  match vp.playheadTime with
  | some t =>
    if s.drawPlayhead then (svpFinish { s with playHeadTime := max 0 t } true, none)
    else (s, some errPlayheadTime)
  | none => (svpFinish s changed, none)

/-- Second guarded step of setViewPort: the playPlayhead field. -/
def setViewPortStep2 (vp : ViewPort) (s : VisState) (changed : Bool) :
    VisState × Option String :=
  match vp.playPlayhead with
  | some b =>
    if s.drawPlayhead then setViewPortStep3 vp { s with playHeadPlaying := b } changed
    else (s, some errPlayPlayhead)
  | none => setViewPortStep3 vp s changed

/-- The non-throwing first half of setViewPort: applies zoom, timestamp and
playViewPort in order, tracking the changed flag. The zoom branch
reproduces the source faithfully: it recomputes the scaled range and then
sets drawTimeEnd to timelineStart + scaledDrawTimeRange, where
timelineStart is the pixel start of the timeline. -/
def setViewPortPre (vp : ViewPort) (s0 : VisState) : VisState × Bool :=
  let r1 :=
    match vp.zoom with
    | some z =>
      let s := updateScaledDrawTimeRange { s0 with timelineZoom := z }
      ({ s with drawTimeEnd := s.timelineStart + s.scaledDrawTimeRange }, true)
    | none => (s0, false)
  let r2 :=
    match vp.timestamp with
    | some ts =>
      if 0 < ts then
        ({ r1.1 with drawTimeStart := ts, drawTimeEnd := ts + r1.1.scaledDrawTimeRange },
         true)
      else r1
    | none => r1
  match vp.playViewPort with
  | some b => ({ r2.1 with playViewPort := b }, r2.2)
  | none => r2

/-- setViewPort: the first half above followed by the three
playhead-dependent fields, each of which throws when the playhead feature
is disabled; a throw aborts the call, returning the error together with the
state as mutated so far (the object keeps those mutations). -/
def setViewPort (vp : ViewPort) (s0 : VisState) : VisState × Option String :=
  let r2 := setViewPortPre vp s0
  match vp.playSpeed with
  | some sp =>
    if r2.1.drawPlayhead then setViewPortStep2 vp { r2.1 with playSpeed := sp } r2.2
    else (r2.1, some errPlaySpeed)
  | none => setViewPortStep2 vp r2.1 r2.2

/-- The playhead block of updateDraw, the per-frame tick, with the
wall-clock delta dt (in seconds, nonnegative) as a parameter: advances the
playhead when playing. -/
def updateDrawHead (dt : ℚ) (s : VisState) : VisState × Bool :=
  if s.playHeadPlaying && s.drawPlayhead then
    ({ s with playHeadTime := s.playHeadTime + s.playSpeed * dt }, true)
  else (s, false)

/-- The viewport auto-play block of updateDraw: advances the window unless
the playhead is playing and has left the visible range. -/
def updateDrawViewPort (dt : ℚ) (s1 : VisState) : VisState × Bool :=
  if s1.playViewPort then
    let play :=
      if s1.playHeadPlaying && s1.drawPlayhead then
        !(decide (s1.playHeadTime > s1.drawTimeEnd) ||
          decide (s1.playHeadTime < s1.drawTimeStart))
      else true
    if play then
      ({ s1 with drawTimeStart := s1.drawTimeStart + s1.playSpeed * dt
                 drawTimeEnd := s1.drawTimeEnd + s1.playSpeed * dt }, true)
    else (s1, false)
  else (s1, false)

/-- updateDraw: the playhead block, the viewport auto-play block, then the
redraws as needed (the only state effect of a redraw is
computePlayheadPosition). -/
def updateDraw (dt : ℚ) (s : VisState) : VisState :=
  let r1 := updateDrawHead dt s
  let r2 := updateDrawViewPort dt r1.1
  if r2.2 then (computePlayheadPosition r2.1).1
  else if r1.2 then
    let r3 := computePlayheadPosition r2.1
    if r3.2 then (computePlayheadPosition r3.1).1 else r3.1
  else r2.1

/-- The state right after construction followed by the initial
updateTimeline call at the default resolve time 0: the constructor derives
the label column as a quarter of the canvas width, the initial update sets
the 500-unit default window from time 0 and leaves the playhead at the
start. rowHeight, timelineObjectHeight and layerLabels are the pre-rebuild
placeholders (see VisState). -/
def initState (canvasWidth : ℚ) (drawPlayhead : Bool) : VisState :=
  let layerLabelWidth := canvasWidth * (1 / 4)
  let timelineWidth := canvasWidth - layerLabelWidth
  { drawPlayhead := drawPlayhead
    canvasWidth := canvasWidth
    timelineWidth := timelineWidth
    timelineStart := layerLabelWidth
    drawTimeStart := 0
    drawTimeEnd := 500
    drawTimeRange := 500
    scaledDrawTimeRange := 500
    pixelsWidthPerUnitTime := timelineWidth / 500
    timelineZoom := 100
    playViewPort := false
    playHeadPlaying := false
    playSpeed := 1
    playHeadTime := 0
    playHeadPosition := layerLabelWidth
    rowHeight := 0
    timelineObjectHeight := 0
    layerLabels := [] }

/-- The viewport states reachable from construction (with the initial
timeline set at time 0) through the state-mutating operations: explicit
viewport set (including its throwing calls, whose partial mutations the
object keeps), pan by a pixel delta (mouse drag or wheel), ctrl+wheel zoom
about the cursor, and the per-frame tick with a nonnegative wall-clock
delta. -/
inductive Reachable : VisState → Prop
  | init (canvasWidth : ℚ) (drawPlayhead : Bool) :
      Reachable (initState canvasWidth drawPlayhead)
  | setVP (s : VisState) (vp : ViewPort) :
      Reachable s → Reachable (setViewPort vp s).1
  | scroll (s : VisState) (dx : ℚ) :
      Reachable s → Reachable (canvasScrollByDeltaX dx s)
  | wheelZoom (s : VisState) (deltaY : Int) (cursorX : ℚ) :
      Reachable s → Reachable (canvasScrollWheelZoom deltaY cursorX s)
  | tick (s : VisState) (dt : ℚ) (h : 0 ≤ dt) :
      Reachable s → Reachable (updateDraw dt s)

/-- A per-instance draw state: pixel rectangle plus visibility. -/
structure DrawState where
  width : ℚ
  height : ℚ
  left : ℚ
  top : ℚ
  visible : Bool
  deriving DecidableEq, Repr

/-- showOnTimeline: the visibility test; (end || Infinity) makes a null or
zero end count as open-ended. -/
def showOnTimeline (s : VisState) (start : ℚ) (stop : Option ℚ) : Bool :=
  let isAfter := decide (start ≥ s.drawTimeEnd)
  let isBefore :=
    match stop with
    | none => false
    | some v => if v == 0 then false else decide (v ≤ s.drawTimeStart)
  !isAfter && !isBefore

/-- getObjectWidth: a falsy end (null or 0) yields the full canvas width;
otherwise the start is clamped up to the window start and the remaining
duration is scaled to pixels. No minimum width is applied. -/
def getObjectWidth (s : VisState) (startTime : ℚ) (endTime : Option ℚ) : ℚ :=
  match endTime with
  | none => s.canvasWidth
  | some e =>
    if e == 0 then s.canvasWidth
    else
      (e - (if startTime < s.drawTimeStart then s.drawTimeStart else startTime)) *
        s.pixelsWidthPerUnitTime

/-- getObjectOffsetFromTimelineStart: pixel offset of the start, clamped at
0. -/
def getObjectOffsetFromTimelineStart (s : VisState) (start : ℚ) : ℚ :=
  let offset := (start - s.drawTimeStart) * s.pixelsWidthPerUnitTime
  if offset < 0 then 0 else offset

/-- getObjectOffsetFromTop: row index of the layer times the row height (a
layer always present in layerLabels when this is called; absent layers are
read as row 0 here). -/
def getObjectOffsetFromTop (s : VisState) (layerName : String) : ℚ :=
  (((alookup s.layerLabels layerName).getD 0 : Nat) : ℚ) * s.rowHeight

/-- createStateForObject: hidden zero rectangle unless the instance passes
the visibility test, in which case the pixel rectangle is derived. -/
def createStateForObject (s : VisState) (layer : String) (start : ℚ)
    (stop : Option ℚ) : DrawState :=
  if showOnTimeline s start stop then
    { height := s.timelineObjectHeight
      left := s.timelineStart + getObjectOffsetFromTimelineStart s start
      top := getObjectOffsetFromTop s layer
      width := getObjectWidth s start stop
      visible := true }
  else { height := 0, left := 0, top := 0, width := 0, visible := false }

/-- An entry of the per-layer hover map: visible x-range and composite name. -/
structure HoverMapData where
  startX : ℚ
  endX : ℚ
  name : String
  deriving DecidableEq, Repr

/-- Hover events observable on the timeline:hover channel: a hover carrying
the hovered composite name (the payload construction is abstracted; whether
an event fires never depends on it) or a cleared hover with undefined
detail. -/
inductive HoverEvent where
  | hover (name : String)
  | clear
  deriving DecidableEq, Repr

/-- MOUSEIN marker of the last hover action. -/
def MOUSEIN : Nat := 0

/-- MOUSEOUT marker of the last hover action. -/
def MOUSEOUT : Nat := 1

/-- The hover bookkeeping of the visualizer: the last action, the name last
hovered (never reset by a hover-clear), and the currently hovered object. -/
structure HoverState where
  lastHoverAction : Nat
  lastHoveredName : String
  hoveredOver : Option String
  deriving DecidableEq, Repr

/-- Character-level model of the JS name.split(':'). -/
def splitCharsOnColon : List Char → List (List Char)
  | [] => [[]]
  | c :: cs =>
    match splitCharsOnColon cs with
    | [] => [[c]]
    | hd :: tl => if c = ':' then [] :: hd :: tl else (c :: hd) :: tl

/-- timelineMetaFromString followed by the type check: the composite name
splits on colons into exactly three parts whose first is timelineObject. -/
def metaOk (name : String) : Bool :=
  let parts := (splitCharsOnColon name.data).map (fun l => String.mk l)
  parts.length == 3 && parts.head? == some "timelineObject"

/-- One rectangle of the hover scan: on containment the found flag is set;
a hover fires only when the name differs from the last hovered name and
parses as timeline-object metadata, updating the bookkeeping. -/
def hoverScanStep (x : ℚ) (acc : HoverState × Bool × List HoverEvent)
    (r : HoverMapData) : HoverState × Bool × List HoverEvent :=
  if r.startX ≤ x ∧ x ≤ r.endX then
    if acc.1.lastHoveredName ≠ r.name ∧ metaOk r.name then
      ({ lastHoverAction := MOUSEIN, lastHoveredName := r.name
         hoveredOver := some r.name },
       true, acc.2.2 ++ [HoverEvent.hover r.name])
    else (acc.1, true, acc.2.2)
  else acc

/-- The hover branch of canvasMouseMove: scan the selected row's hover map
at the cursor x (an empty row also models a cursor outside the timeline
area, where the scan is skipped), then emit a cleared hover when nothing is
under the cursor and the last action was a hover. -/
def canvasMouseMoveHover (st : HoverState) (row : List HoverMapData) (x : ℚ) :
    HoverState × List HoverEvent :=
  let res := row.foldl (hoverScanStep x) (st, false, [])
  if !res.2.1 && res.1.lastHoverAction == MOUSEIN then
    ({ res.1 with lastHoverAction := MOUSEOUT }, res.2.2 ++ [HoverEvent.clear])
  else (res.1, res.2.2)

/-- Concrete input refuting C3 as stated: one object whose single instance
has a negative start and end 0 (a legal instance: start < end is not even
required by the code). -/
def c3cexTimeline : RTimeline :=
  { classes := ""
    layers := ["L"]
    objects := [("A",
      { content := "c", enable := "e", id := "A", layer := "L"
        resolved :=
          { instances := [{ id := "i0", start := -5, stop := some 0 }]
            levelDeep := 0, isResolved := true, resolving := false } })]
    options := ""
    statistics := "" }

/-- Concrete input for the C3 witness: two objects, one with an instance
ending before the bound and one past it, one open-ended instance. -/
def c3witTimeline : RTimeline :=
  { classes := ""
    layers := ["L"]
    objects :=
      [("A",
        { content := "c", enable := "e", id := "A", layer := "L"
          resolved :=
            { instances := [{ id := "a0", start := 2, stop := some 8 },
                            { id := "a1", start := 12, stop := some 20 }]
              levelDeep := 0, isResolved := true, resolving := false } }),
       ("B",
        { content := "c2", enable := "e2", id := "B", layer := "L"
          resolved :=
            { instances := [{ id := "b0", start := 0, stop := none }]
              levelDeep := 0, isResolved := true, resolving := false } })]
    options := ""
    statistics := "" }

/-- Concrete input exhibiting the enable slip of trimTimeline (C8): the
object's enable differs from its content and one instance survives. -/
def c8Timeline : RTimeline :=
  { classes := ""
    layers := ["L"]
    objects := [("A",
      { content := "c", enable := "e", id := "A", layer := "L"
        resolved :=
          { instances := [{ id := "i0", start := 0, stop := some 10 }]
            levelDeep := 0, isResolved := true, resolving := false } })]
    options := ""
    statistics := "" }

/-- Concrete past schedule for the C2 witness: object O with the single
instance [0,10) plus an unrelated object X. -/
def c2Past : RTimeline :=
  { classes := ""
    layers := ["L"]
    objects :=
      [("O",
        { content := "c", enable := "en", id := "O", layer := "L"
          resolved :=
            { instances := [{ id := "a", start := 0, stop := some 10 }]
              levelDeep := 0, isResolved := true, resolving := false } }),
       ("X",
        { content := "xc", enable := "xe", id := "X", layer := "L"
          resolved :=
            { instances := [{ id := "x0", start := 0, stop := some 5 }]
              levelDeep := 0, isResolved := true, resolving := false } })]
    options := ""
    statistics := "" }

/-- Concrete present schedule for the C2 witness: object O, identical
outside the resolved block, with the single instance [10,20). -/
def c2Present : RTimeline :=
  { classes := ""
    layers := ["L"]
    objects :=
      [("O",
        { content := "c", enable := "en", id := "O", layer := "L"
          resolved :=
            { instances := [{ id := "b", start := 10, stop := some 20 }]
              levelDeep := 0, isResolved := true, resolving := false } })]
    options := ""
    statistics := "" }

-- THEOREM ZONE (definitions above, theorems below)

theorem alookup_mem {α : Type} {l : List (String × α)} {k : String} {v : α}
    (h : alookup l k = some v) : (k, v) ∈ l := by
  induction l with
  | nil => simp [alookup] at h
  | cons p rest ih =>
    obtain ⟨k0, v0⟩ := p
    by_cases hk : k0 = k
    · subst hk
      simp [alookup] at h
      simp [h]
    · simp only [alookup, if_neg hk] at h
      exact List.mem_cons_of_mem _ (ih h)

theorem mem_aupdate {α : Type} {l : List (String × α)} {k : String} {nv : α}
    {x : String × α} (h : x ∈ aupdate l k nv) : x ∈ l ∨ x = (k, nv) := by
  induction l with
  | nil => simp [aupdate] at h
  | cons p rest ih =>
    obtain ⟨k0, v0⟩ := p
    by_cases hk : k0 = k
    · subst hk
      simp only [aupdate, if_pos rfl] at h
      rcases List.mem_cons.1 h with h | h
      · right; exact h
      · left; exact List.mem_cons_of_mem _ h
    · simp only [aupdate, if_neg hk] at h
      rcases List.mem_cons.1 h with h | h
      · left; exact h ▸ List.mem_cons_self _ _
      · rcases ih h with h | h
        · left; exact List.mem_cons_of_mem _ h
        · right; exact h

theorem pushTrimInstance_spec {P : TVInstance → Prop} {acc : List (String × RTObject)}
    {objId : String} {obj : RTObject} {newInst : TVInstance}
    (hacc : ∀ p ∈ acc, ∀ inst ∈ p.2.resolved.instances, P inst) (hnew : P newInst) :
    ∀ p ∈ pushTrimInstance acc objId obj newInst,
      ∀ inst ∈ p.2.resolved.instances, P inst := by
  intro p hp inst hinst
  unfold pushTrimInstance at hp
  cases hcur : alookup acc objId with
  | none =>
    rw [hcur] at hp
    rcases List.mem_append.1 hp with h | h
    · exact hacc p h inst hinst
    · simp at h
      subst h
      simp [mkTrimObject] at hinst
      subst hinst
      exact hnew
  | some cur =>
    rw [hcur] at hp
    rcases mem_aupdate hp with h | h
    · exact hacc p h inst hinst
    · subst h
      simp at hinst
      rcases hinst with h | h
      · exact hacc _ (alookup_mem hcur) inst h
      · subst h
        exact hnew

theorem trimFold_inner_spec {trim : TrimProperties} {P : TVInstance → Prop}
    {objId : String} {obj : RTObject} :
    ∀ (insts : List TVInstance) (acc : List (String × RTObject)),
      (∀ p ∈ acc, ∀ i ∈ p.2.resolved.instances, P i) →
      (∀ inst ∈ insts, ∀ out, trimInstance trim inst = some out → P out) →
      ∀ p ∈ insts.foldl
        (fun acc2 inst =>
          match trimInstance trim inst with
          | some newInst => pushTrimInstance acc2 objId obj newInst
          | none => acc2) acc,
        ∀ i ∈ p.2.resolved.instances, P i := by
  intro insts
  induction insts with
  | nil => intro acc hacc _; simpa using hacc
  | cons head tail ih =>
    intro acc hacc hsrc
    rw [List.foldl_cons]
    cases hti : trimInstance trim head with
    | none =>
      simp only [hti]
      exact ih acc hacc (fun i hi => hsrc i (List.mem_cons_of_mem _ hi))
    | some out =>
      simp only [hti]
      exact ih _
        (pushTrimInstance_spec hacc (hsrc head (List.mem_cons_self _ _) out hti))
        (fun i hi => hsrc i (List.mem_cons_of_mem _ hi))

theorem trimTimeline_spec {P : TVInstance → Prop} (tl : RTimeline)
    (trim : TrimProperties)
    (h : ∀ p ∈ tl.objects, ∀ inst ∈ p.2.resolved.instances,
      ∀ out, trimInstance trim inst = some out → P out) :
    ∀ p ∈ (trimTimeline tl trim).objects,
      ∀ inst ∈ p.2.resolved.instances, P inst := by
  have main : ∀ (objs : List (String × RTObject)) (acc : List (String × RTObject)),
      (∀ p ∈ acc, ∀ i ∈ p.2.resolved.instances, P i) →
      (∀ p ∈ objs, ∀ inst ∈ p.2.resolved.instances,
        ∀ out, trimInstance trim inst = some out → P out) →
      ∀ p ∈ objs.foldl
        (fun acc p =>
          p.2.resolved.instances.foldl
            (fun acc2 inst =>
              match trimInstance trim inst with
              | some newInst => pushTrimInstance acc2 p.1 p.2 newInst
              | none => acc2) acc) acc,
        ∀ i ∈ p.2.resolved.instances, P i := by
    intro objs
    induction objs with
    | nil => intro acc hacc _; simpa using hacc
    | cons head tail ih =>
      intro acc hacc hsrc
      rw [List.foldl_cons]
      exact ih _
        (trimFold_inner_spec head.2.resolved.instances acc hacc
          (hsrc head (List.mem_cons_self _ _)))
        (fun p hp => hsrc p (List.mem_cons_of_mem _ hp))
  intro p hp
  exact main tl.objects [] (by simp) h p hp

/-- C3 (amended): for every schedule none of whose instances has end = 0
(a zero end is falsy in JS and treated as open-ended by the trim tests) and
every time T, trimming with a start bound of T leaves no instance whose
non-null end is at or before T, and every surviving instance starts at or
after T. For T = 0 the bound is falsy and the result is empty, so the
property holds vacuously. -/
theorem C3_amended (tl : RTimeline) (T : ℚ)
    (hstop : ∀ p ∈ tl.objects, ∀ inst ∈ p.2.resolved.instances,
      inst.stop ≠ some 0) :
    ∀ p ∈ (trimTimeline tl { start := some T, stop := none }).objects,
      ∀ inst ∈ p.2.resolved.instances,
        (∀ e, inst.stop = some e → T < e) ∧ T ≤ inst.start := by
  refine @trimTimeline_spec
    (fun inst => (∀ e, inst.stop = some e → T < e) ∧ T ≤ inst.start)
    tl { start := some T, stop := none } ?_
  intro p hp inst hinst out hout
  have hz : inst.stop ≠ some 0 := hstop p hp inst hinst
  by_cases hT : T = 0
  · simp [trimInstance, hT] at hout
  · by_cases hG : orInfGT inst.stop T = true
    · have hTe : ∀ e, inst.stop = some e → T < e := by
        intro e he
        unfold orInfGT at hG
        rw [he] at hG hz
        simp at hG
        rcases hG with hG | hG
        · exact absurd (by rw [hG]) hz
        · exact hG
      by_cases hlt : inst.start < T
      · simp only [trimInstance, beq_iff_eq, hT, hG, hlt, if_true, if_false,
          ite_true, ite_false, Bool.true_and] at hout
        split at hout
        · have hout' := Option.some.inj hout
          subst hout'
          exact ⟨fun e he => hTe e he, le_refl T⟩
        · exact absurd hout (by simp)
      · simp only [trimInstance, beq_iff_eq, hT, hG, hlt, if_true, if_false,
          ite_true, ite_false, Bool.true_and] at hout
        split at hout
        · have hout' := Option.some.inj hout
          subst hout'
          exact ⟨hTe, le_of_not_lt hlt⟩
        · exact absurd hout (by simp)
    · simp [trimInstance, beq_iff_eq, hT, hG] at hout

/-- C3 counterexample: the claim as stated fails on the code. For the
schedule c3cexTimeline (one instance with start -5 and end 0) and T = 3,
the trimmed result still contains an instance whose non-null end 0 is at or
before T = 3: the JS test (end || Infinity) > T treats the zero end as
Infinity, keeps the instance and clamps its start to 3. -/
theorem C3_counterexample :
    (trimTimeline c3cexTimeline { start := some 3, stop := none }).objects.map
        (fun p => (p.1, p.2.resolved.instances.map (fun i => (i.start, i.stop))))
      = [("A", [((3 : ℚ), some (0 : ℚ))])]
    ∧ ¬ ((3 : ℚ) < 0) := by
  exact ⟨by decide, by norm_num⟩

/-- Witness for C3_amended at the concrete schedule c3witTimeline and
T = 10: the hypothesis (no zero end) is discharged by evaluation and the
conclusion is the instantiated theorem. -/
theorem C3_amended_witness :
    (∀ p ∈ c3witTimeline.objects, ∀ inst ∈ p.2.resolved.instances,
      inst.stop ≠ some 0)
    ∧ (∀ p ∈ (trimTimeline c3witTimeline { start := some 10, stop := none }).objects,
        ∀ inst ∈ p.2.resolved.instances,
          (∀ e, inst.stop = some e → 10 < e) ∧ 10 ≤ inst.start) :=
  ⟨by decide, C3_amended c3witTimeline 10 (by decide)⟩

/-- C4: when each trim bound is absent or 0 (both falsy in JS), no branch
ever marks an instance usable, so the trimmed schedule's objects map is
empty; in particular trimming at the initial playhead time 0 discards the
whole retained schedule. -/
theorem C4_trim_zero_bounds_empty (tl : RTimeline) (trim : TrimProperties)
    (h1 : trim.start = none ∨ trim.start = some 0)
    (h2 : trim.stop = none ∨ trim.stop = some 0) :
    (trimTimeline tl trim).objects = [] := by
  have hnone : ∀ inst, trimInstance trim inst = none := by
    intro inst
    rcases h1 with h1 | h1 <;> rcases h2 with h2 | h2 <;>
      simp [trimInstance, h1, h2]
  have inner : ∀ (objId : String) (obj : RTObject) (insts : List TVInstance)
      (acc : List (String × RTObject)),
      insts.foldl
        (fun acc2 inst =>
          match trimInstance trim inst with
          | some newInst => pushTrimInstance acc2 objId obj newInst
          | none => acc2) acc = acc := by
    intro objId obj insts
    induction insts with
    | nil => intro acc; rfl
    | cons head tail ih =>
      intro acc
      rw [List.foldl_cons, hnone head]
      exact ih acc
  have outer : ∀ (objs : List (String × RTObject)) (acc : List (String × RTObject)),
      objs.foldl
        (fun acc p =>
          p.2.resolved.instances.foldl
            (fun acc2 inst =>
              match trimInstance trim inst with
              | some newInst => pushTrimInstance acc2 p.1 p.2 newInst
              | none => acc2) acc) acc = acc := by
    intro objs
    induction objs with
    | nil => intro acc; rfl
    | cons head tail ih =>
      intro acc
      rw [List.foldl_cons, inner head.1 head.2, ih]
  simp only [trimTimeline]
  exact outer tl.objects []

/-- Witness for C4_trim_zero_bounds_empty: the concrete schedule
c8Timeline trimmed with start = 0 and no end bound comes back empty. -/
theorem C4_trim_zero_bounds_empty_witness :
    ((({ start := some 0, stop := none } : TrimProperties).start = none
        ∨ ({ start := some 0, stop := none } : TrimProperties).start = some 0)
      ∧ (({ start := some 0, stop := none } : TrimProperties).stop = none
        ∨ ({ start := some 0, stop := none } : TrimProperties).stop = some 0))
    ∧ (trimTimeline c8Timeline { start := some 0, stop := none }).objects = [] :=
  ⟨⟨Or.inr rfl, Or.inl rfl⟩,
    C4_trim_zero_bounds_empty c8Timeline { start := some 0, stop := none }
      (Or.inr rfl) (Or.inl rfl)⟩

/-- C8 (code bug): a surviving object's enable field is not preserved by
trimTimeline. On c8Timeline (object A with content "c" and enable "e",
instance [0,10) surviving a start bound of 5) the returned object carries
enable = "c" — the source assigns enable: obj.content — while the input
object's enable is "e". The id, layer and content fields are preserved. -/
theorem C8_enable_bug :
    ((alookup (trimTimeline c8Timeline { start := some 5, stop := none }).objects
        "A").map RTObject.enable = some "c")
    ∧ ((alookup c8Timeline.objects "A").map RTObject.enable = some "e")
    ∧ ((alookup (trimTimeline c8Timeline { start := some 5, stop := none }).objects
        "A").map RTObject.content = some "c")
    ∧ ((alookup (trimTimeline c8Timeline { start := some 5, stop := none }).objects
        "A").map RTObject.id = some "A")
    ∧ ((alookup (trimTimeline c8Timeline { start := some 5, stop := none }).objects
        "A").map RTObject.layer = some "L") := by
  refine ⟨?_, ?_, ?_, ?_, ?_⟩ <;> decide

theorem firstIdx_append_left {a : String} {l1 : List String} (l2 : List String)
    (h : a ∈ l1) : firstIdx a (l1 ++ l2) = firstIdx a l1 := by
  induction l1 with
  | nil => simp at h
  | cons x xs ih =>
    by_cases hx : x = a
    · simp [firstIdx, hx]
    · rcases List.mem_cons.1 h with h' | h'
      · exact absurd h'.symm hx
      · simp [firstIdx, hx, ih h']

theorem firstIdx_append_self {a : String} {l : List String} (h : a ∉ l) :
    firstIdx a (l ++ [a]) = l.length := by
  induction l with
  | nil => simp [firstIdx]
  | cons x xs ih =>
    have hx : x ≠ a := fun he => h (he ▸ List.mem_cons_self _ _)
    have hxs : a ∉ xs := fun hm => h (List.mem_cons_of_mem _ hm)
    simp [firstIdx, hx, ih hxs]

theorem firstIdx_lt_length {a : String} {l : List String} (h : a ∈ l) :
    firstIdx a l < l.length := by
  induction l with
  | nil => simp at h
  | cons x xs ih =>
    by_cases hx : x = a
    · simp [firstIdx, hx]
    · rcases List.mem_cons.1 h with h' | h'
      · exact absurd h'.symm hx
      · simp only [firstIdx, if_neg hx, List.length_cons]
        exact Nat.succ_lt_succ (ih h')

theorem alookup_withIdx (a : String) : ∀ (L : List String) (i : Nat),
    alookup (withIdx L i) a = if a ∈ L then some (firstIdx a L + i) else none := by
  intro L
  induction L with
  | nil => intro i; simp [withIdx, alookup]
  | cons x xs ih =>
    intro i
    by_cases hx : x = a
    · simp [withIdx, alookup, hx, firstIdx]
    · simp only [withIdx, alookup, if_neg hx, ih (i + 1), firstIdx]
      by_cases hm : a ∈ xs
      · have : a ∈ x :: xs := List.mem_cons_of_mem _ hm
        simp [hm, this, hx, Nat.add_assoc, Nat.add_comm 1 i]
      · have : a ∉ x :: xs := by
          intro hc
          rcases List.mem_cons.1 hc with h' | h'
          · exact hx h'.symm
          · exact hm h'
        simp [hm, this]

theorem dedupFold_order {a b : String} (hab : a ≠ b) :
    ∀ (ks : List String) (acc : List String),
      (b ∈ acc → a ∈ acc ∧ firstIdx a acc < firstIdx b acc) →
      (b ∉ acc → (a ∈ acc ∨ firstIdx a ks < firstIdx b ks)) →
      b ∈ ks.foldl (fun acc l => if l ∈ acc then acc else acc ++ [l]) acc →
      a ∈ ks.foldl (fun acc l => if l ∈ acc then acc else acc ++ [l]) acc ∧
        firstIdx a (ks.foldl (fun acc l => if l ∈ acc then acc else acc ++ [l]) acc)
          < firstIdx b (ks.foldl (fun acc l => if l ∈ acc then acc else acc ++ [l]) acc) := by
  intro ks
  induction ks with
  | nil =>
    intro acc h1 _ hb
    exact h1 hb
  | cons k ks' ih =>
    intro acc h1 h2 hb
    rw [List.foldl_cons] at hb ⊢
    by_cases hk : k ∈ acc
    · rw [if_pos hk] at hb ⊢
      refine ih acc h1 ?_ hb
      intro hbacc
      rcases h2 hbacc with h | h
      · exact Or.inl h
      · by_cases hka : k = a
        · exact Or.inl (hka ▸ hk)
        · right
          have hkb : k ≠ b := fun he => hbacc (he ▸ hk)
          simp only [firstIdx, if_neg hka, if_neg hkb] at h
          exact Nat.lt_of_succ_lt_succ h
    · rw [if_neg hk] at hb ⊢
      refine ih (acc ++ [k]) ?_ ?_ hb
      · intro hbm
        rcases List.mem_append.1 hbm with hbacc | hbk
        · obtain ⟨haacc, hidx⟩ := h1 hbacc
          refine ⟨List.mem_append_left _ haacc, ?_⟩
          rw [firstIdx_append_left [k] haacc, firstIdx_append_left [k] hbacc]
          exact hidx
        · simp at hbk
          subst hbk
          have hbacc : b ∉ acc := hk
          rcases h2 hbacc with h | h
          · refine ⟨List.mem_append_left _ h, ?_⟩
            rw [firstIdx_append_left [b] h, firstIdx_append_self hbacc]
            exact firstIdx_lt_length h
          · exfalso
            simp only [firstIdx, if_pos rfl] at h
            by_cases hka : b = a
            · exact hab hka.symm
            · simp only [if_neg hka] at h
              exact Nat.not_lt_zero _ h
      · intro hbm
        have hbacc : b ∉ acc := fun hc => hbm (List.mem_append_left _ hc)
        have hbk : k ≠ b := fun he => hbm (List.mem_append_right _ (by simp [he]))
        rcases h2 hbacc with h | h
        · exact Or.inl (List.mem_append_left _ h)
        · by_cases hka : k = a
          · exact Or.inl (List.mem_append_right _ (by simp [hka]))
          · right
            simp only [firstIdx, if_neg hka, if_neg hbk] at h
            exact Nat.lt_of_succ_lt_succ h

/-- C7 (amended): the derived layer-name-to-row-index mapping enumerates
the distinct layer names in first-occurrence order of the resolved
timeline's layers keys (the source never sorts them): if a's first
occurrence among the keys precedes b's, then a's row index is smaller. -/
theorem C7_amended (keys : List String) (a b : String) (ia ib : Nat)
    (hab : a ≠ b)
    (ha : alookup (getLayersToDraw keys) a = some ia)
    (hb : alookup (getLayersToDraw keys) b = some ib)
    (horder : firstIdx a keys < firstIdx b keys) :
    ia < ib := by
  unfold getLayersToDraw at ha hb
  rw [alookup_withIdx] at ha hb
  by_cases hbm : b ∈ dedupKeys keys
  · have hmain := dedupFold_order hab keys []
      (by intro h; simp at h)
      (by intro _; exact Or.inr horder)
      (by simpa [dedupKeys] using hbm)
    obtain ⟨ham, hidx⟩ := hmain
    have ham' : a ∈ dedupKeys keys := by simpa [dedupKeys] using ham
    rw [if_pos ham'] at ha
    rw [if_pos hbm] at hb
    have ha' := Option.some.inj ha
    have hb' := Option.some.inj hb
    rw [Nat.add_zero] at ha' hb'
    rw [← ha', ← hb']
    simpa [dedupKeys] using hidx
  · rw [if_neg hbm] at hb
    exact absurd hb (by simp)

/-- C7 counterexample: the claim as stated (lexicographically smaller layer
names get smaller row indices) fails on the code: with layer keys in the
order b, a the mapping assigns b the row 0 and a the row 1, although a is
lexicographically smaller. -/
theorem C7_counterexample :
    alookup (getLayersToDraw ["b", "a"]) "a" = some 1
    ∧ alookup (getLayersToDraw ["b", "a"]) "b" = some 0
    ∧ ("a" < "b")
    ∧ ¬ ((1 : Nat) < 0) := by
  refine ⟨by decide, by decide, String.lt_iff_toList_lt.2 (by decide), by decide⟩

/-- Witness for C7_amended on the concrete key list x, y. -/
theorem C7_amended_witness :
    (("x" : String) ≠ "y"
      ∧ alookup (getLayersToDraw ["x", "y"]) "x" = some 0
      ∧ alookup (getLayersToDraw ["x", "y"]) "y" = some 1
      ∧ firstIdx "x" ["x", "y"] < firstIdx "y" ["x", "y"])
    ∧ (0 : Nat) < 1 :=
  ⟨⟨by decide, by decide, by decide, by decide⟩,
    C7_amended ["x", "y"] "x" "y" 0 1 (by decide) (by decide) (by decide) (by decide)⟩

theorem alookup_aupdate_self {α : Type} {l : List (String × α)} {k : String}
    {v0 v : α} (h : alookup l k = some v0) :
    alookup (aupdate l k v) k = some v := by
  induction l with
  | nil => simp [alookup] at h
  | cons p rest ih =>
    obtain ⟨k0, w⟩ := p
    by_cases hk : k0 = k
    · simp [aupdate, alookup, hk]
    · simp only [alookup, if_neg hk] at h
      simp only [aupdate, if_neg hk, alookup, if_neg hk]
      exact ih h

theorem alookup_aupdate_ne {α : Type} {l : List (String × α)} {k k' : String}
    {v : α} (h : k' ≠ k) : alookup (aupdate l k v) k' = alookup l k' := by
  induction l with
  | nil => rfl
  | cons p rest ih =>
    obtain ⟨k0, w⟩ := p
    by_cases hk : k0 = k
    · subst hk
      have hk' : k0 ≠ k' := fun he => h he.symm
      simp [aupdate, alookup, hk']
    · by_cases hk' : k0 = k'
      · simp [aupdate, alookup, if_neg hk, hk', h]
      · simp only [aupdate, if_neg hk, alookup, if_neg hk']
        exact ih

theorem mergeStitchKey_ne {pm qm : List (String × RTObject)} {k k0 : String}
    (h : k0 ≠ k) :
    alookup (mergeStitchKey pm qm k).1 k0 = alookup pm k0
    ∧ alookup (mergeStitchKey pm qm k).2 k0 = alookup qm k0 := by
  unfold mergeStitchKey
  cases hpm : alookup pm k with
  | none =>
    cases hqm : alookup qm k with
    | none => simp
    | some qo => simp
  | some po =>
    cases hqm : alookup qm k with
    | none => simp
    | some qo =>
      by_cases he : eqNonResolved po qo = true
      · simp only [he, if_true]
        exact ⟨alookup_aupdate_ne h, alookup_aupdate_ne h⟩
      · simp only [Bool.not_eq_true] at he
        simp [he]

theorem stitchFold_ne :
    ∀ (ks : List String)
      (st : List (String × RTObject) × List (String × RTObject)) (k0 : String),
      k0 ∉ ks →
      alookup (ks.foldl (fun st k => mergeStitchKey st.1 st.2 k) st).1 k0
          = alookup st.1 k0
      ∧ alookup (ks.foldl (fun st k => mergeStitchKey st.1 st.2 k) st).2 k0
          = alookup st.2 k0 := by
  intro ks
  induction ks with
  | nil => intro st k0 _; exact ⟨rfl, rfl⟩
  | cons k ks' ih =>
    intro st k0 hk0
    have hne : k0 ≠ k := fun he => hk0 (he ▸ List.mem_cons_self _ _)
    have hk0' : k0 ∉ ks' := fun hm => hk0 (List.mem_cons_of_mem _ hm)
    rw [List.foldl_cons]
    obtain ⟨e1, e2⟩ := ih (mergeStitchKey st.1 st.2 k) k0 hk0'
    obtain ⟨f1, f2⟩ := mergeStitchKey_ne hne
    exact ⟨e1.trans f1, e2.trans f2⟩

theorem stitchFold_at :
    ∀ (ks : List String)
      (st : List (String × RTObject) × List (String × RTObject)) (k0 : String)
      (po qo : RTObject),
      ks.Nodup → k0 ∈ ks →
      alookup st.1 k0 = some po → alookup st.2 k0 = some qo →
      eqNonResolved po qo = true →
      alookup (ks.foldl (fun st k => mergeStitchKey st.1 st.2 k) st).1 k0
          = some { po with resolved := { po.resolved with instances :=
            (stitchInstances po.resolved.instances qo.resolved.instances).1 } }
      ∧ alookup (ks.foldl (fun st k => mergeStitchKey st.1 st.2 k) st).2 k0
          = some { qo with resolved := { qo.resolved with instances :=
            (stitchInstances po.resolved.instances qo.resolved.instances).2 } } := by
  intro ks
  induction ks with
  | nil => intro st k0 po qo _ hmem; simp at hmem
  | cons k ks' ih =>
    intro st k0 po qo hnd hmem hpo hqo heq
    rw [List.foldl_cons]
    rcases List.nodup_cons.1 hnd with ⟨hknot, hnd'⟩
    by_cases hk : k = k0
    · subst hk
      have hstep : mergeStitchKey st.1 st.2 k
          = (aupdate st.1 k
              { po with resolved := { po.resolved with instances :=
                (stitchInstances po.resolved.instances qo.resolved.instances).1 } },
             aupdate st.2 k
              { qo with resolved := { qo.resolved with instances :=
                (stitchInstances po.resolved.instances qo.resolved.instances).2 } }) := by
        unfold mergeStitchKey
        rw [hpo, hqo]
        simp [heq]
      rw [hstep]
      obtain ⟨e1, e2⟩ := stitchFold_ne ks' _ k hknot
      rw [e1, e2]
      constructor
      · exact alookup_aupdate_self hpo
      · exact alookup_aupdate_self hqo
    · have hmem' : k0 ∈ ks' := by
        rcases List.mem_cons.1 hmem with h | h
        · exact absurd h.symm hk
        · exact h
      obtain ⟨f1, f2⟩ := mergeStitchKey_ne (fun he => hk he.symm)
      exact ih (mergeStitchKey st.1 st.2 k) k0 po qo hnd' hmem'
        (f1.trans hpo) (f2.trans hqo) heq

theorem alookup_map_snd {g : String → RTObject → RTObject} :
    ∀ (l : List (String × RTObject)) (k : String),
      alookup (l.map (fun p => (p.1, g p.1 p.2))) k = (alookup l k).map (g k) := by
  intro l
  induction l with
  | nil => intro k; rfl
  | cons p rest ih =>
    intro k
    obtain ⟨k0, v0⟩ := p
    by_cases hk : k0 = k
    · subst hk
      simp [alookup]
    · simp only [List.map_cons, alookup, if_neg hk]
      exact ih k

theorem alookup_append_left {α : Type} {l1 : List (String × α)}
    (l2 : List (String × α)) {k : String} {v : α} (h : alookup l1 k = some v) :
    alookup (l1 ++ l2) k = some v := by
  induction l1 with
  | nil => simp [alookup] at h
  | cons p rest ih =>
    obtain ⟨k0, v0⟩ := p
    by_cases hk : k0 = k
    · simp only [alookup, if_pos hk] at h
      simp [alookup, if_pos hk, h]
    · simp only [alookup, if_neg hk] at h
      simp only [List.cons_append, alookup, if_neg hk]
      exact ih h

theorem stitch_single {p q : TVInstance} (h : (p.stop == some q.start) = true) :
    stitchInstances [p] [q] = ([], [{ q with start := p.start }]) := by
  simp [stitchInstances, stitchFrom, stitchInner, h, List.get?]

theorem alookup_mapMerge {qm : List (String × RTObject)} :
    ∀ (pm l2 : List (String × RTObject)) (k0 : String) (po : RTObject),
      alookup pm k0 = some po →
      alookup (pm.map (fun p =>
        match alookup qm p.1 with
        | some qo =>
          (p.1, { qo with resolved :=
            { qo.resolved with instances :=
              qo.resolved.instances ++
                p.2.resolved.instances.drop qo.resolved.instances.length } })
        | none => p) ++ l2) k0
        = some (match alookup qm k0 with
          | some qo => { qo with resolved :=
              { qo.resolved with instances :=
                qo.resolved.instances ++
                  po.resolved.instances.drop qo.resolved.instances.length } }
          | none => po) := by
  intro pm
  induction pm with
  | nil => intro l2 k0 po h; simp [alookup] at h
  | cons p rest ih =>
    intro l2 k0 po h
    obtain ⟨k1, v1⟩ := p
    by_cases hk : k1 = k0
    · subst hk
      simp only [alookup, if_pos rfl] at h
      have hv := Option.some.inj h
      subst hv
      cases hq : alookup qm k1 with
      | none => simp [alookup, hq]
      | some qo => simp [alookup, hq]
    · simp only [alookup, if_neg hk] at h
      cases hq : alookup qm k1 with
      | none =>
        simp only [List.map_cons, hq, List.cons_append, alookup, if_neg hk]
        exact ih l2 k0 po h
      | some qo =>
        simp only [List.map_cons, hq, List.cons_append, alookup, if_neg hk]
        exact ih l2 k0 po h

theorem alookup_lodashMergeObjects {pm qm : List (String × RTObject)}
    {k0 : String} {po : RTObject} (h : alookup pm k0 = some po) :
    alookup (lodashMergeObjects pm qm) k0
      = some (match alookup qm k0 with
        | some qo => { qo with resolved :=
            { qo.resolved with instances :=
              qo.resolved.instances ++
                po.resolved.instances.drop qo.resolved.instances.length } }
        | none => po) := by
  unfold lodashMergeObjects
  exact alookup_mapMerge pm _ k0 po h

/-- C2: merging a past schedule whose object O has the single instance
[0,10) with a present schedule whose object O has the single instance
[10,20), where O's definitions agree outside the resolved block, yields
exactly one instance for O spanning [0,20): the touching instances are
stitched (the present start is widened to 0) and the splice-by-reference
slip removes the only past instance, so the lodash merge keeps just the
widened present instance. The Nodup hypothesis records that JS object keys
are unique. -/
theorem C2_merge_stitch (past present : RTimeline) (objId : String)
    (pastObj presentObj : RTObject) (i1 i2 : TVInstance)
    (hnodup : (past.objects.map Prod.fst).Nodup)
    (hp : alookup past.objects objId = some pastObj)
    (hq : alookup present.objects objId = some presentObj)
    (heq : eqNonResolved pastObj presentObj = true)
    (hpi : pastObj.resolved.instances = [i1])
    (hqi : presentObj.resolved.instances = [i2])
    (h1s : i1.start = 0) (h1e : i1.stop = some 10)
    (h2s : i2.start = 10) (h2e : i2.stop = some 20) :
    ((alookup (mergeTimelineObjects past present).objects objId).map
      (fun o => o.resolved.instances.map (fun i => (i.start, i.stop))))
      = some [((0 : ℚ), some (20 : ℚ))] := by
  have hkey : objId ∈ past.objects.map Prod.fst :=
    List.mem_map.2 ⟨(objId, pastObj), alookup_mem hp, rfl⟩
  obtain ⟨e1, e2⟩ := stitchFold_at (past.objects.map Prod.fst)
    (past.objects, present.objects) objId pastObj presentObj hnodup hkey hp hq heq
  have hbe : (i1.stop == some i2.start) = true := by
    rw [h1e, h2s]
    decide
  rw [hpi, hqi, stitch_single hbe] at e1 e2
  simp only [mergeTimelineObjects, lodashMergeTimeline]
  rw [alookup_lodashMergeObjects e1, e2]
  simp [h1s, h2e]

/-- Witness for C2_merge_stitch on the concrete schedules c2Past and
c2Present: all hypotheses are discharged by evaluation and the conclusion
is the instantiated theorem. -/
theorem C2_merge_stitch_witness :
    ((c2Past.objects.map Prod.fst).Nodup
      ∧ alookup c2Past.objects "O"
          = some { content := "c", enable := "en", id := "O", layer := "L"
                   resolved :=
                     { instances := [{ id := "a", start := 0, stop := some 10 }]
                       levelDeep := 0, isResolved := true, resolving := false } }
      ∧ alookup c2Present.objects "O"
          = some { content := "c", enable := "en", id := "O", layer := "L"
                   resolved :=
                     { instances := [{ id := "b", start := 10, stop := some 20 }]
                       levelDeep := 0, isResolved := true, resolving := false } })
    ∧ ((alookup (mergeTimelineObjects c2Past c2Present).objects "O").map
        (fun o => o.resolved.instances.map (fun i => (i.start, i.stop))))
        = some [((0 : ℚ), some (20 : ℚ))] :=
  ⟨⟨by decide, by decide, by decide⟩,
    C2_merge_stitch c2Past c2Present "O"
      { content := "c", enable := "en", id := "O", layer := "L"
        resolved :=
          { instances := [{ id := "a", start := 0, stop := some 10 }]
            levelDeep := 0, isResolved := true, resolving := false } }
      { content := "c", enable := "en", id := "O", layer := "L"
        resolved :=
          { instances := [{ id := "b", start := 10, stop := some 20 }]
            levelDeep := 0, isResolved := true, resolving := false } }
      { id := "a", start := 0, stop := some 10 }
      { id := "b", start := 10, stop := some 20 }
      (by decide) (by decide) (by decide) (by decide) rfl rfl rfl rfl rfl rfl⟩

theorem setViewPortPre_proj (vp : ViewPort) (s : VisState) :
    (setViewPortPre vp s).1.drawPlayhead = s.drawPlayhead
    ∧ (setViewPortPre vp s).1.playSpeed = s.playSpeed
    ∧ (setViewPortPre vp s).1.playHeadPlaying = s.playHeadPlaying
    ∧ (setViewPortPre vp s).1.playHeadTime = s.playHeadTime
    ∧ (setViewPortPre vp s).1.playHeadPosition = s.playHeadPosition := by
  obtain ⟨ts, zm, pph, pht, pvp, psp⟩ := vp
  cases zm <;> cases ts <;> cases pvp <;>
    simp only [setViewPortPre, updateScaledDrawTimeRange] <;>
    (try split) <;> simp

theorem setViewPortPre_id (vp : ViewPort) (s : VisState)
    (hz : vp.zoom = none) (ht : vp.timestamp = none)
    (hv : vp.playViewPort = none) : setViewPortPre vp s = (s, false) := by
  simp [setViewPortPre, hz, ht, hv]

/-- C1 (amended): a setViewPort call that supplies a playhead-dependent
field (playSpeed, playPlayhead or playheadTime) on a visualizer constructed
without drawPlayhead raises an error, never reaches the redraw, and leaves
every playhead-related field (playSpeed, playHeadPlaying, playHeadTime,
playHeadPosition) unchanged; but zoom, timestamp and playViewPort fields
supplied in the same argument are applied before the error, so the call
leaves the whole state unchanged only when none of those three fields is
supplied. -/
theorem C1_amended (s : VisState) (vp : ViewPort)
    (hdp : s.drawPlayhead = false)
    (hone : vp.playSpeed ≠ none ∨ vp.playPlayhead ≠ none ∨ vp.playheadTime ≠ none) :
    (setViewPort vp s).2.isSome = true
    ∧ (setViewPort vp s).1.playSpeed = s.playSpeed
    ∧ (setViewPort vp s).1.playHeadPlaying = s.playHeadPlaying
    ∧ (setViewPort vp s).1.playHeadTime = s.playHeadTime
    ∧ (setViewPort vp s).1.playHeadPosition = s.playHeadPosition
    ∧ (vp.zoom = none → vp.timestamp = none → vp.playViewPort = none →
        (setViewPort vp s).1 = s) := by
  obtain ⟨hd, hsp, hpl, hti, hpos⟩ := setViewPortPre_proj vp s
  have hdp' : (setViewPortPre vp s).1.drawPlayhead = false := hd.trans hdp
  unfold setViewPort
  cases hpsp : vp.playSpeed with
  | some sp =>
    simp only [hpsp, hdp', Bool.false_eq_true, if_false]
    refine ⟨rfl, hsp, hpl, hti, hpos, ?_⟩
    intro hz ht hv
    rw [setViewPortPre_id vp s hz ht hv]
  | none =>
    simp only [hpsp]
    unfold setViewPortStep2
    cases hpph : vp.playPlayhead with
    | some b =>
      simp only [hpph, hdp', Bool.false_eq_true, if_false]
      refine ⟨rfl, hsp, hpl, hti, hpos, ?_⟩
      intro hz ht hv
      rw [setViewPortPre_id vp s hz ht hv]
    | none =>
      simp only [hpph]
      unfold setViewPortStep3
      cases hpht : vp.playheadTime with
      | some t =>
        simp only [hpht, hdp', Bool.false_eq_true, if_false]
        refine ⟨rfl, hsp, hpl, hti, hpos, ?_⟩
        intro hz ht hv
        rw [setViewPortPre_id vp s hz ht hv]
      | none =>
        rcases hone with h | h | h
        · exact absurd hpsp h
        · exact absurd hpph h
        · exact absurd hpht h

/-- C1 counterexample: the claim as stated fails on the code. On a
visualizer constructed without drawPlayhead, a setViewPort call supplying
both zoom and playSpeed raises the playSpeed error, yet the zoom (and the
derived scaled range) have already been applied: the state is not left
unchanged. -/
theorem C1_counterexample :
    (setViewPort { emptyViewPort with zoom := some 50, playSpeed := some 2 }
        (initState 1000 false)).2 = some errPlaySpeed
    ∧ (setViewPort { emptyViewPort with zoom := some 50, playSpeed := some 2 }
        (initState 1000 false)).1.timelineZoom = 50
    ∧ (initState 1000 false).timelineZoom = 100
    ∧ (setViewPort { emptyViewPort with zoom := some 50, playSpeed := some 2 }
        (initState 1000 false)).1.scaledDrawTimeRange = 250
    ∧ (initState 1000 false).scaledDrawTimeRange = 500 := by
  refine ⟨?_, ?_, ?_, ?_, ?_⟩ <;>
    norm_num [setViewPort, setViewPortPre, setViewPortStep2, setViewPortStep3,
      updateScaledDrawTimeRange, initState, emptyViewPort]

/-- Witness for C1_amended: on the freshly constructed no-playhead state, a
call supplying only playheadTime errors and leaves the state unchanged. -/
theorem C1_amended_witness :
    ((initState 1000 false).drawPlayhead = false
      ∧ ({ emptyViewPort with playheadTime := some 5 } : ViewPort).playheadTime ≠ none)
    ∧ ((setViewPort { emptyViewPort with playheadTime := some 5 }
          (initState 1000 false)).2.isSome = true
      ∧ (setViewPort { emptyViewPort with playheadTime := some 5 }
          (initState 1000 false)).1.playSpeed = (initState 1000 false).playSpeed
      ∧ (setViewPort { emptyViewPort with playheadTime := some 5 }
          (initState 1000 false)).1.playHeadPlaying = (initState 1000 false).playHeadPlaying
      ∧ (setViewPort { emptyViewPort with playheadTime := some 5 }
          (initState 1000 false)).1.playHeadTime = (initState 1000 false).playHeadTime
      ∧ (setViewPort { emptyViewPort with playheadTime := some 5 }
          (initState 1000 false)).1.playHeadPosition = (initState 1000 false).playHeadPosition
      ∧ (({ emptyViewPort with playheadTime := some 5 } : ViewPort).zoom = none →
          ({ emptyViewPort with playheadTime := some 5 } : ViewPort).timestamp = none →
          ({ emptyViewPort with playheadTime := some 5 } : ViewPort).playViewPort = none →
          (setViewPort { emptyViewPort with playheadTime := some 5 }
            (initState 1000 false)).1 = initState 1000 false)) :=
  ⟨⟨rfl, by decide⟩,
    C1_amended (initState 1000 false) { emptyViewPort with playheadTime := some 5 }
      rfl (Or.inr (Or.inr (by decide)))⟩

theorem computePlayheadPosition_drawTimeStart (s : VisState) :
    (computePlayheadPosition s).1.drawTimeStart = s.drawTimeStart := by
  simp only [computePlayheadPosition]
  split <;> split <;> rfl

theorem svpFinish_drawTimeStart (s : VisState) (c : Bool) :
    (svpFinish s c).drawTimeStart = s.drawTimeStart := by
  unfold svpFinish
  split
  · rw [computePlayheadPosition_drawTimeStart, computePlayheadPosition_drawTimeStart]
  · rfl

theorem setViewPortStep3_drawTimeStart (vp : ViewPort) (s : VisState) (c : Bool) :
    (setViewPortStep3 vp s c).1.drawTimeStart = s.drawTimeStart := by
  unfold setViewPortStep3
  cases hty : vp.playheadTime with
  | some t =>
    by_cases hdp : s.drawPlayhead = true
    · simp [hdp, svpFinish_drawTimeStart]
    · simp [hdp]
  | none => simp [svpFinish_drawTimeStart]

theorem setViewPortStep2_drawTimeStart (vp : ViewPort) (s : VisState) (c : Bool) :
    (setViewPortStep2 vp s c).1.drawTimeStart = s.drawTimeStart := by
  unfold setViewPortStep2
  cases hty : vp.playPlayhead with
  | some b =>
    by_cases hdp : s.drawPlayhead = true
    · simp [hdp, setViewPortStep3_drawTimeStart]
    · simp [hdp]
  | none => simp [setViewPortStep3_drawTimeStart]

theorem setViewPortPre_start (vp : ViewPort) (s : VisState)
    (hs : 0 ≤ s.drawTimeStart) : 0 ≤ (setViewPortPre vp s).1.drawTimeStart := by
  obtain ⟨ts, zm, pph, pht, pvp, psp⟩ := vp
  cases zm <;> cases ts <;> cases pvp <;>
    simp only [setViewPortPre, updateScaledDrawTimeRange] <;>
    first
      | exact hs
      | (split_ifs with h <;> simp <;> linarith)

theorem setViewPort_start (vp : ViewPort) (s : VisState)
    (hs : 0 ≤ s.drawTimeStart) : 0 ≤ (setViewPort vp s).1.drawTimeStart := by
  have hpre := setViewPortPre_start vp s hs
  unfold setViewPort
  cases hty : vp.playSpeed with
  | some sp =>
    by_cases hdp : (setViewPortPre vp s).1.drawPlayhead = true
    · simp only [hdp, if_true, setViewPortStep2_drawTimeStart]
      exact hpre
    · simp only [hdp, Bool.false_eq_true, if_false]
      exact hpre
  | none =>
    simp only [setViewPortStep2_drawTimeStart]
    exact hpre

theorem zoomUnderCursor_start (cursorX : ℚ) (s : VisState) :
    0 ≤ (zoomUnderCursor cursorX s).drawTimeStart := by
  simp only [zoomUnderCursor]
  split_ifs with h
  all_goals dsimp only
  all_goals linarith

theorem canvasScrollByDeltaX_start (dx : ℚ) (s : VisState)
    (hs : 0 ≤ s.drawTimeStart) : 0 ≤ (canvasScrollByDeltaX dx s).drawTimeStart := by
  simp only [canvasScrollByDeltaX]
  repeat' split
  all_goals (try dsimp only)
  all_goals linarith

theorem canvasScrollWheelZoom_start (deltaY : Int) (cursorX : ℚ) (s : VisState)
    (hs : 0 ≤ s.drawTimeStart) :
    0 ≤ (canvasScrollWheelZoom deltaY cursorX s).drawTimeStart := by
  simp only [canvasScrollWheelZoom]
  split_ifs with h1 h2 h3
  · exact hs
  · exact zoomUnderCursor_start _ _
  · exact zoomUnderCursor_start _ _
  · exact hs

theorem updateDrawHead_proj (dt : ℚ) (s : VisState) :
    (updateDrawHead dt s).1.drawTimeStart = s.drawTimeStart
    ∧ (updateDrawHead dt s).1.playSpeed = s.playSpeed := by
  unfold updateDrawHead
  split <;> exact ⟨rfl, rfl⟩

theorem updateDrawViewPort_start (dt : ℚ) (s1 : VisState)
    (hdt : 0 ≤ dt) (hsp : 0 ≤ s1.playSpeed) (hs : 0 ≤ s1.drawTimeStart) :
    0 ≤ (updateDrawViewPort dt s1).1.drawTimeStart := by
  have hmul : 0 ≤ s1.playSpeed * dt := mul_nonneg hsp hdt
  simp only [updateDrawViewPort]
  repeat' split
  all_goals (try dsimp only)
  all_goals linarith

theorem updateDraw_start (dt : ℚ) (s : VisState)
    (hdt : 0 ≤ dt) (hsp : 0 ≤ s.playSpeed) (hs : 0 ≤ s.drawTimeStart) :
    0 ≤ (updateDraw dt s).drawTimeStart := by
  obtain ⟨e1, e2⟩ := updateDrawHead_proj dt s
  have hstage2 : 0 ≤ (updateDrawViewPort dt (updateDrawHead dt s).1).1.drawTimeStart :=
    updateDrawViewPort_start dt _ hdt (e2.symm ▸ hsp) (e1.symm ▸ hs)
  simp only [updateDraw]
  split
  · rw [computePlayheadPosition_drawTimeStart]
    exact hstage2
  · split
    · split
      · rw [computePlayheadPosition_drawTimeStart, computePlayheadPosition_drawTimeStart]
        exact hstage2
      · rw [computePlayheadPosition_drawTimeStart]
        exact hstage2
    · exact hstage2

/-- C6 (amended): drawTimeStart ≥ 0 holds after construction and is
preserved by pan (any pixel delta), ctrl+wheel zoom about the cursor, and
explicit viewport set; the per-frame tick preserves it provided the
configured play speed is nonnegative (a negative play speed with viewport
auto-play active does drive drawTimeStart below 0, see the
counterexample). -/
theorem C6_drawTimeStart_nonneg (cw dx cursorX dt : ℚ) (dp : Bool)
    (deltaY : Int) (vp : ViewPort) (s : VisState)
    (hs : 0 ≤ s.drawTimeStart) (hdt : 0 ≤ dt) (hsp : 0 ≤ s.playSpeed) :
    0 ≤ (initState cw dp).drawTimeStart
    ∧ 0 ≤ (canvasScrollByDeltaX dx s).drawTimeStart
    ∧ 0 ≤ (canvasScrollWheelZoom deltaY cursorX s).drawTimeStart
    ∧ 0 ≤ (setViewPort vp s).1.drawTimeStart
    ∧ 0 ≤ (updateDraw dt s).drawTimeStart :=
  ⟨le_refl 0,
   canvasScrollByDeltaX_start dx s hs,
   canvasScrollWheelZoom_start deltaY cursorX s hs,
   setViewPort_start vp s hs,
   updateDraw_start dt s hdt hsp hs⟩

/-- C6 counterexample: the claim as stated fails on the code: the per-frame
tick with a configured negative play speed (a value setViewPort accepts
unchecked) and viewport auto-play drives drawTimeStart below 0. The state
below is reachable: construct with drawPlayhead, set playViewPort and
playSpeed := -1000 through setViewPort, then tick once with dt = 1s. -/
theorem C6_counterexample :
    ∃ s : VisState, Reachable s ∧ s.drawTimeStart < 0 := by
  refine ⟨updateDraw 1 (setViewPort
      { emptyViewPort with playViewPort := some true, playSpeed := some (-1000) }
      (initState 1000 true)).1,
    Reachable.tick _ 1 (by norm_num)
      (Reachable.setVP _ _ (Reachable.init 1000 true)), ?_⟩
  norm_num [updateDraw, updateDrawHead, updateDrawViewPort, setViewPort,
    setViewPortPre, setViewPortStep2, setViewPortStep3, svpFinish,
    computePlayheadPosition, timeToXCoord, initState, emptyViewPort]

/-- Witness for C6_drawTimeStart_nonneg at the constructed state with
concrete pan, zoom, set and tick arguments. -/
theorem C6_drawTimeStart_nonneg_witness :
    ((0 : ℚ) ≤ (initState 1000 true).drawTimeStart ∧ (0 : ℚ) ≤ 1
      ∧ 0 ≤ (initState 1000 true).playSpeed)
    ∧ (0 ≤ (initState 1000 true).drawTimeStart
      ∧ 0 ≤ (canvasScrollByDeltaX (-5000) (initState 1000 true)).drawTimeStart
      ∧ 0 ≤ (canvasScrollWheelZoom 3 400 (initState 1000 true)).drawTimeStart
      ∧ 0 ≤ (setViewPort { emptyViewPort with timestamp := some 42 }
          (initState 1000 true)).1.drawTimeStart
      ∧ 0 ≤ (updateDraw 1 (initState 1000 true)).drawTimeStart) :=
  ⟨⟨by norm_num [initState], by norm_num, by norm_num [initState]⟩,
    C6_drawTimeStart_nonneg 1000 (-5000) 400 1 true 3
      { emptyViewPort with timestamp := some 42 } (initState 1000 true)
      (by norm_num [initState]) (by norm_num) (by norm_num [initState])⟩

/-- C5 (amended): in every viewport state whose scaled range is consistent
with the window (scaledDrawTimeRange = drawTimeEnd − drawTimeStart, the
relation maintained by construction, pan, zoom-under-cursor and the tick,
but broken by setViewPort's zoom branch) and whose timeline width is
positive, the pixel-to-time mapping inverts the time-to-pixel mapping
exactly (the embedding computes over rationals, so the source's
floating-point tolerance becomes exact equality) for every time strictly
inside the window. -/
theorem C5_roundtrip (s : VisState) (t : ℚ)
    (hc : s.scaledDrawTimeRange = s.drawTimeEnd - s.drawTimeStart)
    (hW : 0 < s.timelineWidth)
    (h1 : s.drawTimeStart < t) (h2 : t < s.drawTimeEnd) :
    cursorPosToTime s (timeToXCoord s t) = t := by
  have hba : 0 < s.drawTimeEnd - s.drawTimeStart := by linarith
  have hx : timeToXCoord s t
      = (t - s.drawTimeStart) / (s.drawTimeEnd - s.drawTimeStart) * s.timelineWidth
        + s.timelineStart := by
    unfold timeToXCoord
    rw [if_neg (by linarith), if_neg (by linarith)]
  have hr0 : 0 < (t - s.drawTimeStart) / (s.drawTimeEnd - s.drawTimeStart) :=
    div_pos (by linarith) hba
  have hr1 : (t - s.drawTimeStart) / (s.drawTimeEnd - s.drawTimeStart) < 1 := by
    rw [div_lt_one hba]
    linarith
  have hxgt : s.timelineStart < timeToXCoord s t := by
    rw [hx]
    nlinarith
  have hxlt : timeToXCoord s t < s.timelineStart + s.timelineWidth := by
    rw [hx]
    nlinarith
  unfold cursorPosToTime getCursorPositionAcrossTimeline
  rw [if_neg (by push_neg; exact ⟨hxgt, hxlt⟩), if_neg (by push_neg; exact ⟨hxgt, hxlt⟩)]
  rw [hx, hc]
  field_simp
  ring

/-- C5 counterexample: the claim as stated fails on the code: after the
reachable call setViewPort {zoom: 100} on the freshly constructed
visualizer (canvas width 1000), drawTimeEnd becomes timelineStart +
scaledDrawTimeRange = 250 + 500 = 750 while scaledDrawTimeRange stays 500,
so for t = 300 strictly inside the window [0, 750] the round trip returns
200, off by 100 — far beyond any floating-point tolerance (the embedding
computes the same arithmetic exactly). -/
theorem C5_counterexample :
    ∃ s : VisState, Reachable s
      ∧ s.drawTimeStart < 300 ∧ (300 : ℚ) < s.drawTimeEnd
      ∧ cursorPosToTime s (timeToXCoord s 300) = 200
      ∧ (200 : ℚ) ≠ 300 := by
  refine ⟨(setViewPort { emptyViewPort with zoom := some 100 }
      (initState 1000 false)).1,
    Reachable.setVP _ _ (Reachable.init 1000 false), ?_, ?_, ?_, by norm_num⟩ <;>
    norm_num [setViewPort, setViewPortPre, setViewPortStep2, setViewPortStep3,
      svpFinish, computePlayheadPosition, timeToXCoord, cursorPosToTime,
      getCursorPositionAcrossTimeline, updateScaledDrawTimeRange, initState,
      emptyViewPort]

/-- Witness for C5_roundtrip at the freshly constructed state (canvas
width 1000: window [0, 500], scaled range 500, timeline width 750) and
t = 200. -/
theorem C5_roundtrip_witness :
    ((initState 1000 false).scaledDrawTimeRange
        = (initState 1000 false).drawTimeEnd - (initState 1000 false).drawTimeStart
      ∧ (0 : ℚ) < (initState 1000 false).timelineWidth
      ∧ (initState 1000 false).drawTimeStart < 200
      ∧ (200 : ℚ) < (initState 1000 false).drawTimeEnd)
    ∧ cursorPosToTime (initState 1000 false) (timeToXCoord (initState 1000 false) 200)
        = 200 :=
  ⟨⟨by norm_num [initState], by norm_num [initState], by norm_num [initState],
      by norm_num [initState]⟩,
    C5_roundtrip (initState 1000 false) 200 (by norm_num [initState])
      (by norm_num [initState]) (by norm_num [initState]) (by norm_num [initState])⟩

theorem hoverScan_mem (x : ℚ) (R : String) :
    ∀ (row : List HoverMapData) (acc : HoverState × Bool × List HoverEvent),
      (∀ r ∈ row, r.startX ≤ x ∧ x ≤ r.endX → r.name = R) →
      (HoverEvent.hover R ∈ acc.2.2 →
        acc.1.lastHoveredName = R ∧ acc.1.lastHoverAction = MOUSEIN) →
      HoverEvent.hover R ∈ (row.foldl (hoverScanStep x) acc).2.2 →
      (row.foldl (hoverScanStep x) acc).1.lastHoveredName = R
      ∧ (row.foldl (hoverScanStep x) acc).1.lastHoverAction = MOUSEIN := by
  intro row
  induction row with
  | nil => intro acc _ hinv hmem; exact hinv hmem
  | cons r rest ih =>
    intro acc hall hinv hmem
    rw [List.foldl_cons] at hmem ⊢
    refine ih (hoverScanStep x acc r)
      (fun q hq hc => hall q (List.mem_cons_of_mem _ hq) hc) ?_ hmem
    intro hm
    unfold hoverScanStep at hm ⊢
    by_cases hc : r.startX ≤ x ∧ x ≤ r.endX
    · have hR : r.name = R := hall r (List.mem_cons_self _ _) hc
      by_cases hu : acc.1.lastHoveredName ≠ r.name ∧ metaOk r.name = true
      · simp only [if_pos hc, if_pos hu]
        constructor
        · exact hR
        · trivial
      · simp only [if_pos hc, if_neg hu] at hm ⊢
        exact hinv hm
    · simp only [if_neg hc] at hm ⊢
      exact hinv hm

theorem hoverScan_skip (x : ℚ) :
    ∀ (row : List HoverMapData) (acc : HoverState × Bool × List HoverEvent),
      (∀ r ∈ row, ¬(r.startX ≤ x ∧ x ≤ r.endX)) →
      row.foldl (hoverScanStep x) acc = acc := by
  intro row
  induction row with
  | nil => intro acc _; rfl
  | cons r rest ih =>
    intro acc hall
    rw [List.foldl_cons]
    have hstep : hoverScanStep x acc r = acc := by
      unfold hoverScanStep
      rw [if_neg (hall r (List.mem_cons_self _ _))]
    rw [hstep]
    exact ih acc (fun q hq => hall q (List.mem_cons_of_mem _ hq))

theorem hoverScan_same (x : ℚ) (R : String) :
    ∀ (row : List HoverMapData) (st : HoverState) (f : Bool) (evs : List HoverEvent),
      st.lastHoveredName = R →
      (∀ r ∈ row, r.startX ≤ x ∧ x ≤ r.endX → r.name = R) →
      (row.foldl (hoverScanStep x) (st, f, evs)).1 = st
      ∧ (row.foldl (hoverScanStep x) (st, f, evs)).2.2 = evs
      ∧ ((f = true ∨ ∃ r ∈ row, r.startX ≤ x ∧ x ≤ r.endX) →
          (row.foldl (hoverScanStep x) (st, f, evs)).2.1 = true) := by
  intro row
  induction row with
  | nil =>
    intro st f evs _ _
    refine ⟨rfl, rfl, ?_⟩
    rintro (h | ⟨r, hr, _⟩)
    · exact h
    · simp at hr
  | cons r rest ih =>
    intro st f evs hname hall
    rw [List.foldl_cons]
    by_cases hc : r.startX ≤ x ∧ x ≤ r.endX
    · have hR : r.name = R := hall r (List.mem_cons_self _ _) hc
      have hstep : hoverScanStep x (st, f, evs) r = (st, true, evs) := by
        unfold hoverScanStep
        rw [if_pos hc, if_neg]
        intro hu
        exact hu.1 (hname.trans hR.symm)
      rw [hstep]
      obtain ⟨e1, e2, e3⟩ := ih st true evs hname
        (fun q hq hqc => hall q (List.mem_cons_of_mem _ hq) hqc)
      exact ⟨e1, e2, fun _ => e3 (Or.inl rfl)⟩
    · have hstep : hoverScanStep x (st, f, evs) r = (st, f, evs) := by
        unfold hoverScanStep
        rw [if_neg hc]
      rw [hstep]
      obtain ⟨e1, e2, e3⟩ := ih st f evs hname
        (fun q hq hqc => hall q (List.mem_cons_of_mem _ hq) hqc)
      refine ⟨e1, e2, ?_⟩
      rintro (h | ⟨q, hq, hqc⟩)
      · exact e3 (Or.inl h)
      · rcases List.mem_cons.1 hq with h' | h'
        · exact absurd (h' ▸ hqc) hc
        · exact e3 (Or.inr ⟨q, h', hqc⟩)

theorem mouseMove_lastHoveredName (st : HoverState) (row : List HoverMapData)
    (x : ℚ) :
    (canvasMouseMoveHover st row x).1.lastHoveredName
      = (row.foldl (hoverScanStep x) (st, false, [])).1.lastHoveredName := by
  simp only [canvasMouseMoveHover]
  split <;> rfl

theorem mouseMove_no_event (st : HoverState) (row : List HoverMapData) (x : ℚ)
    (hfound : (row.foldl (hoverScanStep x) (st, false, [])).2.1 = true)
    (hevs : (row.foldl (hoverScanStep x) (st, false, [])).2.2 = []) :
    (canvasMouseMoveHover st row x).2 = [] := by
  simp only [canvasMouseMoveHover, hfound, hevs, Bool.not_true, Bool.false_and,
    Bool.false_eq_true, if_false]

/-- C10: after a hover event fires for rectangle R (every rectangle under
the first pointer position is named R), then the pointer leaves all
rectangles (a hover-clear fires there), re-entering R without entering any
other rectangle emits nothing: the hover-clear resets only the
last-hover-action marker, not the last-hovered name, so the re-entry is
debounced into silence. -/
theorem C10_hover_reentry_silent (st : HoverState)
    (row1 row2 row3 : List HoverMapData) (x1 x2 x3 : ℚ) (R : String)
    (h1all : ∀ r ∈ row1, r.startX ≤ x1 ∧ x1 ≤ r.endX → r.name = R)
    (h1hover : HoverEvent.hover R ∈ (canvasMouseMoveHover st row1 x1).2)
    (h2none : ∀ r ∈ row2, ¬(r.startX ≤ x2 ∧ x2 ≤ r.endX))
    (h3all : ∀ r ∈ row3, r.startX ≤ x3 ∧ x3 ≤ r.endX → r.name = R)
    (h3some : ∃ r ∈ row3, r.startX ≤ x3 ∧ x3 ≤ r.endX) :
    (canvasMouseMoveHover
      (canvasMouseMoveHover (canvasMouseMoveHover st row1 x1).1 row2 x2).1
      row3 x3).2 = [] := by
  have hmem1 : HoverEvent.hover R
      ∈ (row1.foldl (hoverScanStep x1) (st, false, [])).2.2 := by
    revert h1hover
    simp only [canvasMouseMoveHover]
    split
    · intro h
      rcases List.mem_append.1 h with h | h
      · exact h
      · simp at h
    · intro h
      exact h
  have hname1 : (canvasMouseMoveHover st row1 x1).1.lastHoveredName = R := by
    rw [mouseMove_lastHoveredName]
    exact (hoverScan_mem x1 R row1 (st, false, []) h1all (by intro h; simp at h)
      hmem1).1
  have hname2 : (canvasMouseMoveHover
      (canvasMouseMoveHover st row1 x1).1 row2 x2).1.lastHoveredName = R := by
    rw [mouseMove_lastHoveredName, hoverScan_skip x2 row2 _ h2none]
    exact hname1
  obtain ⟨e1, e2, e3⟩ := hoverScan_same x3 R row3
    (canvasMouseMoveHover (canvasMouseMoveHover st row1 x1).1 row2 x2).1
    false [] hname2 h3all
  have hfound := e3 (Or.inr h3some)
  exact mouseMove_no_event _ _ _ hfound e2

/-- Witness for C10_hover_reentry_silent: pointer enters the rectangle
[0,10] named timelineObject:A:i0 at x = 5 (hover fires), leaves (row scan
finds nothing at the empty row), and re-enters at x = 5: the third call
emits nothing. -/
theorem C10_hover_reentry_silent_witness :
    ((∀ r ∈ [({ startX := 0, endX := 10, name := "timelineObject:A:i0" } : HoverMapData)],
        r.startX ≤ (5 : ℚ) ∧ (5 : ℚ) ≤ r.endX → r.name = "timelineObject:A:i0")
      ∧ HoverEvent.hover "timelineObject:A:i0"
          ∈ (canvasMouseMoveHover
            { lastHoverAction := MOUSEOUT, lastHoveredName := "", hoveredOver := none }
            [{ startX := 0, endX := 10, name := "timelineObject:A:i0" }] 5).2
      ∧ (∃ r ∈ [({ startX := 0, endX := 10, name := "timelineObject:A:i0" } : HoverMapData)],
          r.startX ≤ (5 : ℚ) ∧ (5 : ℚ) ≤ r.endX))
    ∧ (canvasMouseMoveHover
        (canvasMouseMoveHover
          (canvasMouseMoveHover
            { lastHoverAction := MOUSEOUT, lastHoveredName := "", hoveredOver := none }
            [{ startX := 0, endX := 10, name := "timelineObject:A:i0" }] 5).1
          [] 7).1
        [{ startX := 0, endX := 10, name := "timelineObject:A:i0" }] 5).2 = [] :=
  ⟨⟨by decide, by decide, by decide⟩,
    C10_hover_reentry_silent
      { lastHoverAction := MOUSEOUT, lastHoveredName := "", hoveredOver := none }
      [{ startX := 0, endX := 10, name := "timelineObject:A:i0" }] []
      [{ startX := 0, endX := 10, name := "timelineObject:A:i0" }] 5 7 5
      "timelineObject:A:i0" (by decide) (by decide) (by simp) (by decide) (by decide)⟩

/-- C9 (amended): for a visible instance with a non-null, nonzero end, the
stored width is exactly (end − max(start, drawTimeStart)) ×
pixelsPerUnitTime: the code applies no 1-pixel minimum, so the stored width
can be arbitrarily small (see the counterexample); an end equal to 0 is
falsy in JS and falls back to the full canvas width like a null end. -/
theorem C9_width_formula (s : VisState) (layer : String) (start e : ℚ)
    (he : e ≠ 0)
    (hshow : showOnTimeline s start (some e) = true) :
    (createStateForObject s layer start (some e)).width
      = (e - max start s.drawTimeStart) * s.pixelsWidthPerUnitTime := by
  unfold createStateForObject
  rw [if_pos hshow]
  show getObjectWidth s start (some e) = _
  simp only [getObjectWidth]
  rw [if_neg (by simpa using he)]
  by_cases hlt : start < s.drawTimeStart
  · rw [if_pos hlt, max_eq_right (le_of_lt hlt)]
  · rw [if_neg hlt, max_eq_left (le_of_not_lt hlt)]

/-- C9 counterexample: the claim as stated fails on the code: on the
freshly constructed viewport (window [0,500], 3/2 pixels per time unit) the
visible instance [0, 1/2) stores width 3/4 < 1 — there is no floor to a
1-pixel minimum anywhere in getObjectWidth. -/
theorem C9_counterexample :
    (createStateForObject (initState 1000 false) "L" 0 (some (1 / 2))).visible = true
    ∧ (createStateForObject (initState 1000 false) "L" 0 (some (1 / 2))).width = 3 / 4
    ∧ ¬ ((1 : ℚ) ≤
        (createStateForObject (initState 1000 false) "L" 0 (some (1 / 2))).width) := by
  refine ⟨?_, ?_, ?_⟩ <;>
    norm_num [createStateForObject, showOnTimeline, getObjectWidth,
      getObjectOffsetFromTimelineStart, getObjectOffsetFromTop, initState, alookup]

/-- Witness for C9_width_formula at the freshly constructed viewport and
the instance [0, 1/2). -/
theorem C9_width_formula_witness :
    (((1 : ℚ) / 2 ≠ 0
      ∧ showOnTimeline (initState 1000 false) 0 (some (1 / 2)) = true))
    ∧ (createStateForObject (initState 1000 false) "L" 0 (some (1 / 2))).width
        = ((1 : ℚ) / 2 - max 0 (initState 1000 false).drawTimeStart)
          * (initState 1000 false).pixelsWidthPerUnitTime :=
  ⟨⟨by norm_num, by norm_num [showOnTimeline, initState]⟩,
    C9_width_formula (initState 1000 false) "L" 0 (1 / 2) (by norm_num)
      (by norm_num [showOnTimeline, initState])⟩
